import Mathlib

/-!
Shallow embedding of the task-manager core (`src/tasks.py`) and proofs of the
spec claims about it.

Modelling conventions:
* A Python task dict becomes the structure `TaskApp.Task`; a field that may be
  absent from the dict is an `Option` (`none` = key absent).  The `id` field is
  three-valued (`absent` / `null` / `int n`) because the code distinguishes a
  missing key (`task.get("id", 0)` defaults to `0`) from a present `None` value.
  Field values are restricted to the types the program actually stores in them
  (strings, booleans, integers).
* Wall-clock time (`datetime.now()`) is passed in explicitly: `today : Date`
  for date values and `now : String` for the `created_at` timestamp.
* `datetime.strptime(s, "%Y-%m-%d")` is embedded as `parseDate` (4-digit year,
  1-2 digit month and day, real calendar validity including leap years, year
  at least 1); `none` models the `ValueError` it raises.
* A raised exception is an `Except.error`; the error type's constructors name
  the exception kinds the code can raise on the modelled paths.
-/

namespace TaskApp

/-- A calendar date, as produced by `datetime.strptime(s, "%Y-%m-%d").date()`. -/
structure Date where
  year : Nat
  month : Nat
  day : Nat
deriving DecidableEq, Repr

/-- Gregorian leap-year rule, as used by Python's `datetime`. -/
def isLeapYear (y : Nat) : Bool :=
  y % 4 = 0 && (y % 100 != 0 || y % 400 = 0)

/-- Number of days in a month, as validated by Python's `datetime` constructor. -/
def daysInMonth (y m : Nat) : Nat :=
  if m = 2 then (if isLeapYear y then 29 else 28)
  else if m = 4 ∨ m = 6 ∨ m = 9 ∨ m = 11 then 30
  else 31

/-- Strict comparison of dates (`<` on Python `date` objects). -/
def dateBefore (a b : Date) : Bool :=
  decide (a.year < b.year ∨ (a.year = b.year ∧
    (a.month < b.month ∨ (a.month = b.month ∧ a.day < b.day))))

/-- Split a character list at every `'-'` (used to read the `Y-m-d` fields).
The result always has at least one element. -/
def splitDashes : List Char → List (List Char)
  | [] => [[]]
  | c :: rest =>
    match splitDashes rest with
    | [] => []
    | p :: ps => if c = '-' then [] :: p :: ps else (c :: p) :: ps

/-- Value of a decimal digit string (`none` if empty or a non-digit occurs),
mirroring the `\d` groups of `strptime`. -/
def digitsToNatAux (acc : Nat) : List Char → Option Nat
  | [] => some acc
  | c :: cs => if c.isDigit then digitsToNatAux (acc * 10 + (c.toNat - 48)) cs else none

def digitsToNat (cs : List Char) : Option Nat :=
  if cs.isEmpty then none else digitsToNatAux 0 cs

/-- `datetime.strptime(s, "%Y-%m-%d")`: a 4-digit year, a 1-2 digit month and a
1-2 digit day separated by `-`, forming a valid calendar date (year ≥ 1).
`none` models the `ValueError` raised on any other input. -/
def parseDate (s : String) : Option Date :=
  match splitDashes s.data with
  | [ys, ms, ds] =>
    if ys.length = 4 ∧ (ms.length = 1 ∨ ms.length = 2) ∧
        (ds.length = 1 ∨ ds.length = 2) then
      match digitsToNat ys, digitsToNat ms, digitsToNat ds with
      | some y, some m, some d =>
        if 1 ≤ y ∧ 1 ≤ m ∧ m ≤ 12 ∧ 1 ≤ d ∧ d ≤ daysInMonth y m then
          some ⟨y, m, d⟩
        else none
      | _, _, _ => none
    else none
  | _ => none

/-- Left-pad a number with zeros to `width` digits (`strftime` zero padding). -/
def pad (width n : Nat) : String :=
  let s := toString n
  if s.length < width then String.mk (List.replicate (width - s.length) '0') ++ s else s

/-- `date.strftime("%Y-%m-%d")`. -/
def formatDate (d : Date) : String :=
  pad 4 d.year ++ "-" ++ pad 2 d.month ++ "-" ++ pad 2 d.day

/-- The `id` entry of a task dict: key absent, present with value `None`, or an
integer. -/
inductive IdVal where
  | absent
  | null
  | int (n : Int)
deriving DecidableEq, Repr

/-- A task dict.  `none` in an `Option` field means the key is absent. -/
structure Task where
  id : IdVal
  title : Option String
  description : Option String
  priority : Option String
  category : Option String
  due_date : Option String
  completed : Option Bool
  created_at : Option String
deriving DecidableEq, Repr

/-- The three admissible priorities (`["High", "Medium", "Low"]`). -/
def validPriorities : List String := ["High", "Medium", "Low"]

/-- `validate_task(task)` from `src/tasks.py`.  The Python function mutates the
dict in place and returns a boolean; the embedding returns the pair
(return value, mutated task).  Defaults are filled for absent keys; then the
function returns `False` if the title is empty (priority/due-date coercion is
NOT reached in that case); otherwise priority and due-date are coerced and it
returns `True`.  `today`/`now` stand for the `datetime.now()` calls. -/
def validate_task (today : Date) (now : String) (t : Task) : Bool × Task :=
  let t1 : Task :=
    { id := match t.id with | .absent => .null | v => v
      title := some (t.title.getD "")
      description := some (t.description.getD "")
      priority := some (t.priority.getD "Low")
      category := some (t.category.getD "Other")
      due_date := some (t.due_date.getD (formatDate today))
      completed := some (t.completed.getD false)
      created_at := some (t.created_at.getD now) }
  if t1.title = some "" then (false, t1)
  else
    let t2 : Task :=
      { t1 with priority :=
          if validPriorities.contains (t1.priority.getD "") then t1.priority
          else some "Low" }
    let t3 : Task :=
      { t2 with due_date :=
          match t2.due_date with
          | some s => if (parseDate s).isSome then some s else some (formatDate today)
          | none => none }
    (true, t3)

/-- Exception kinds raised by the embedded functions. -/
inductive PyError where
  | valueError
  | typeError
deriving DecidableEq, Repr

/-- `create_task(title, description, priority, category, due_date)` from
`src/tasks.py`.  Raises `ValueError` on an empty title; coerces an invalid
priority to `"Low"` and an unparsable due date to today's date; builds the
task dict (`description or ""`, `category or "Other"`, `id = None`,
`completed = False`); finally runs `validate_task` on it and raises if that
returns `False`. -/
def create_task (today : Date) (now : String)
    (title description priority category due_date : String) : Except PyError Task :=
  if title = "" then .error .valueError
  else
    let priority := if validPriorities.contains priority then priority else "Low"
    let due_date := if (parseDate due_date).isSome then due_date else formatDate today
    let task : Task :=
      { id := .null
        title := some title
        description := some (if description = "" then "" else description)
        priority := some priority
        category := some (if category = "" then "Other" else category)
        due_date := some due_date
        completed := some false
        created_at := some now }
    match validate_task today now task with
    | (true, t) => .ok t
    | (false, _) => .error .valueError

/-- What the store file can hold when read: no file at all, content the JSON
parser rejects, or a well-formed serialized task collection.  Python's `json`
round-trips JSON-representable data (the task dicts) unchanged, so a
well-formed store is modelled directly by the collection it holds; `raw`
carries the unparsable text of a corrupt store. -/
inductive FileContent where
  | missing
  | malformed (raw : String)
  | data (tasks : List Task)

/-- Exceptions of the read path: `open` raises `FileNotFoundError` on a missing
file, `json.load` raises `json.JSONDecodeError` on malformed content. -/
inductive LoadError where
  | fileNotFound
  | jsonDecodeError
deriving DecidableEq, Repr

/-- The body of the `try:` block in `load_tasks`: `open` + `json.load`. -/
def openAndParse : FileContent → Except LoadError (List Task)
  | .missing => .error .fileNotFound
  | .malformed _ => .error .jsonDecodeError
  | .data ts => .ok ts

/-- `load_tasks(tasks_file)` from `src/tasks.py`: the `except (FileNotFoundError,
json.JSONDecodeError)` clause turns both read failures into `[]`.  The total
return type records that no exception escapes on these paths. -/
def load_tasks (fc : FileContent) : List Task :=
  match openAndParse fc with
  | .ok ts => ts
  | .error .fileNotFound => []
  | .error .jsonDecodeError => []

/-- A file system: content found at each path. -/
def FS : Type := String → FileContent

/-- `save_tasks(tasks, tasks_file)` from `src/tasks.py`: overwrite the file at
`tasks_file` with the serialized collection (`json.dump`). -/
def save_tasks (tasks : List Task) (fs : FS) (tasks_file : String) : FS :=
  fun p => if p = tasks_file then .data tasks else fs p

/-- `task.get("id", 0)`: `0` for an absent key, the stored value otherwise
(`none` = the Python value `None`). -/
def idDefault0 (t : Task) : Option Int :=
  match t.id with
  | .absent => some 0
  | .null => none
  | .int n => some n

/-- The values `task.get("id", 0)` over a task list, `none` if any of them is
Python `None` (with which `max`/`+ 1` raises `TypeError`). -/
def idsOf : List Task → Option (List Int)
  | [] => some []
  | t :: ts =>
    match idDefault0 t, idsOf ts with
    | some v, some vs => some (v :: vs)
    | _, _ => none

/-- `generate_unique_id(tasks)` from `src/tasks.py`: `1` for an empty list,
else `max(task.get("id", 0) for task in tasks) + 1`.  A `None` id makes the
`max`/`+ 1` computation raise `TypeError`. -/
def generate_unique_id (tasks : List Task) : Except PyError Int :=
  match tasks with
  | [] => .ok 1
  | t :: ts =>
    match idDefault0 t, idsOf ts with
    | some v, some vs => .ok (vs.foldl max v + 1)
    | _, _ => .error .typeError

/-- `filter_tasks_by_priority(tasks, priority)` from `src/tasks.py`. -/
def filter_tasks_by_priority (tasks : List Task) (priority : String) : List Task :=
  if priority = "NonExistent" then []
  else tasks.filter (fun t => t.priority == some priority)

/-- `filter_tasks_by_category(tasks, category)` from `src/tasks.py`. -/
def filter_tasks_by_category (tasks : List Task) (category : String) : List Task :=
  if category = "NonExistent" then []
  else tasks.filter (fun t => t.category == some category)

/-- `filter_tasks_by_completion(tasks, completed)` from `src/tasks.py`:
`task.get("completed") == completed`, where `.get` with no default yields
`None` for an absent key (and `None` equals neither boolean). -/
def filter_tasks_by_completion (tasks : List Task) (completed : Bool) : List Task :=
  tasks.filter (fun t => t.completed == some completed)

/-- Python's substring operator `needle in haystack`. -/
def strContains (haystack needle : String) : Bool :=
  decide (needle.data <:+: haystack.data)

/-- Python's `str.lower()` (on the ASCII text the program stores). -/
def lowerStr (s : String) : String :=
  ⟨s.data.map Char.toLower⟩

/-- `search_tasks(tasks, query)` from `src/tasks.py`: `[]` for a falsy query
(`None` or `""`); otherwise keep each task for which `validate_task` returns
`True` and the lowered query occurs in the lowered title or description.  The
Python comprehension returns the dicts as mutated by `validate_task`, so the
embedding returns the validated versions. -/
def search_tasks (today : Date) (now : String) (tasks : List Task)
    (query : Option String) : List Task :=
  match query with
  | none => []
  | some q =>
    if q = "" then []
    else
      let ql := lowerStr q
      tasks.filterMap (fun t =>
        let r := validate_task today now t
        if r.1 && (strContains (lowerStr (r.2.title.getD "")) ql ||
                   strContains (lowerStr (r.2.description.getD "")) ql)
        then some r.2 else none)

/-- The two `ValueError`s `get_overdue_tasks` can raise: its own "missing
due_date" error and the `strptime` parse failure. -/
inductive OverdueError where
  | missingDueDate
  | badDateFormat
deriving DecidableEq, Repr

/-- `get_overdue_tasks(tasks)` from `src/tasks.py`: walk the list; for each
task whose `task.get("completed", False)` is falsy, raise if the `due_date`
key is absent, parse it (raising on bad format), and collect the task when the
date is strictly before `today`.  Completed tasks are skipped entirely. -/
def get_overdue_tasks (today : Date) : List Task → Except OverdueError (List Task)
  | [] => .ok []
  | t :: ts =>
    if !(t.completed.getD false) then
      match t.due_date with
      | none => .error .missingDueDate
      | some s =>
        match parseDate s with
        | none => .error .badDateFormat
        | some d =>
          match get_overdue_tasks today ts with
          | .error e => .error e
          | .ok rest => .ok (if dateBefore d today then t :: rest else rest)
    else get_overdue_tasks today ts

deriving instance DecidableEq for Except

/-! ### Spec-side predicates (written from the claims' wording) -/

/-- Claim side, C1: the `completed` value with an absent field read as `false`. -/
def completedWithDefault (t : Task) : Bool := t.completed.getD false

/-- Claim side, C1: filter as the claim describes it — keep exactly the tasks
whose `completed`, with a missing field treated as `false`, equals `b`. -/
def claimFilterByCompletion (tasks : List Task) (b : Bool) : List Task :=
  tasks.filter (fun t => completedWithDefault t == b)

/-- A task whose `completed` value is falsy (`task.get("completed", False)`). -/
def isIncomplete (t : Task) : Bool := !(t.completed.getD false)

/-- The task's `due_date` is present and parses in `YYYY-MM-DD` format. -/
def dueParses (t : Task) : Bool :=
  match t.due_date with
  | some s => (parseDate s).isSome
  | none => false

/-- Claim side, C2: overdue = incomplete with a due date strictly before today. -/
def dueBefore (today : Date) (t : Task) : Bool :=
  match t.due_date with
  | some s =>
    match parseDate s with
    | some d => dateBefore d today
    | none => false
  | none => false

def isOverdue (today : Date) (t : Task) : Bool :=
  isIncomplete t && dueBefore today t

/-- The error an individual task triggers in `get_overdue_tasks`, if any:
an incomplete task with no `due_date` key raises the missing-field
`ValueError`, an incomplete task with an unparsable `due_date` raises the
`strptime` `ValueError`. -/
def offend (t : Task) : Option OverdueError :=
  if isIncomplete t then
    match t.due_date with
    | none => some .missingDueDate
    | some s => if (parseDate s).isSome then none else some .badDateFormat
  else none

/-- The integer value of a task's id, with an absent field read as `0`
(claim side of C3; meaningful when no id is `null`). -/
def idNum (t : Task) : Int :=
  match t.id with
  | .absent => 0
  | .null => 0
  | .int n => n

/-- Claim side, C5: the query occurs case-insensitively in title or
description. -/
def matchesQuery (q : String) (t : Task) : Prop :=
  (lowerStr q).data <:+: (lowerStr (t.title.getD "")).data ∨
  (lowerStr q).data <:+: (lowerStr (t.description.getD "")).data

instance (q : String) (t : Task) : Decidable (matchesQuery q t) := by
  unfold matchesQuery; infer_instance

/-- Claim side, C5: in input order, the validated form of exactly those tasks
that pass `validate_task` and match the query case-insensitively. -/
def search_spec (today : Date) (now : String) (tasks : List Task) (q : String) :
    List Task :=
  ((tasks.map (validate_task today now)).filter
    (fun r => r.1 && decide (matchesQuery q r.2))).map Prod.snd

/-! ### Sample tasks used in witnesses and counterexamples -/

/-- A fully-populated valid task (id 1, incomplete, due 2025-01-14). -/
def sample1 : Task :=
  { id := .int 1
    title := some "Test Task 1"
    description := some "first"
    priority := some "High"
    category := some "Work"
    due_date := some "2025-01-14"
    completed := some false
    created_at := some "2025-01-01 10:00:00" }

/-- A second valid task (id 2, incomplete, due 2025-01-15). -/
def sample2 : Task :=
  { sample1 with
    id := .int 2
    title := some "Test Task 2"
    description := some "second"
    due_date := some "2025-01-15" }

/-- A completed task (id 3, due 2025-01-16). -/
def sample3 : Task :=
  { sample1 with
    id := .int 3
    title := some "Test Task 3"
    due_date := some "2025-01-16"
    completed := some true }

/-- A task whose dict has no `completed` key. -/
def sampleNoCompleted : Task := { sample1 with id := .int 4, completed := none }

/-- A task failing validation (empty title) whose description nevertheless
matches the searches of the C5 scenario. -/
def sampleUntitled : Task :=
  { sample1 with id := .int 7, title := some "", description := some "test task 1" }

/-- A task like `sample1` but with no `due_date` key. -/
def sampleNoDue : Task := { sample1 with id := .int 5, due_date := none }

/-- A task like `sample1` but with an unparsable `due_date`. -/
def sampleBadDue : Task := { sample1 with id := .int 6, due_date := some "bogus" }

/-- The reference date used by the concrete witnesses. -/
def day0 : Date := ⟨2025, 1, 15⟩

/-! ### Claim theorems -/

/-- C8: `filter_tasks_by_priority` and `filter_tasks_by_category` return `[]`
for the sentinel value `"NonExistent"`, for every collection — even one whose
tasks carry that literal value in the corresponding field. -/
theorem C8_nonexistent_sentinel :
    ∀ tasks : List Task,
      filter_tasks_by_priority tasks "NonExistent" = [] ∧
      filter_tasks_by_category tasks "NonExistent" = [] := by
  intro tasks
  constructor <;> rfl

/-- C6: `load_tasks` returns `[]` for a missing file and for arbitrary
malformed content; its total return type `List Task` records that neither
read failure escapes (the `except` clause catches both). -/
theorem C6_load_missing_or_malformed :
    ∀ raw : String,
      load_tasks .missing = [] ∧ load_tasks (.malformed raw) = [] := by
  intro raw
  exact ⟨rfl, rfl⟩

/-- C7: saving a collection and loading from the same path returns a
collection equal to the one saved, for every file system state, path and
(well-formed, as all modelled collections are) collection. -/
theorem C7_save_load_roundtrip :
    ∀ (fs : FS) (path : String) (tasks : List Task),
      load_tasks (save_tasks tasks fs path path) = tasks := by
  intro fs path tasks
  simp [load_tasks, save_tasks, openAndParse]

/-- C1 counterexample: on a one-task collection whose task has no `completed`
key, the claim predicts the task is returned for `b = false` (missing treated
as `completed = false`), but the code returns `[]`: `task.get("completed")`
yields `None`, which equals neither boolean. -/
theorem C1_counterexample :
    claimFilterByCompletion [sampleNoCompleted] false = [sampleNoCompleted] ∧
    filter_tasks_by_completion [sampleNoCompleted] false = [] := by
  decide

/-- C1 (amended): `filter_tasks_by_completion` returns, preserving input
order, exactly the tasks whose `completed` field is present and equals `b`; a
task with no `completed` field is excluded for both `b = true` and
`b = false`. -/
theorem C1_filter_by_completion_amended :
    ∀ (tasks : List Task) (b : Bool),
      (filter_tasks_by_completion tasks b).Sublist tasks ∧
      (∀ t, t ∈ filter_tasks_by_completion tasks b ↔
        t ∈ tasks ∧ t.completed = some b) := by
  intro tasks b
  refine ⟨List.filter_sublist tasks, fun t => ?_⟩
  simp [filter_tasks_by_completion, List.mem_filter]

/-! ### Lemmas about the id computation -/

lemma le_foldl_max (l : List Int) : ∀ a : Int, a ≤ l.foldl max a := by
  induction l with
  | nil => intro a; exact le_refl a
  | cons b l ih =>
    intro a
    exact le_trans (le_max_left a b) (ih (max a b))

lemma mem_le_foldl_max (l : List Int) :
    ∀ (a x : Int), x ∈ l → x ≤ l.foldl max a := by
  induction l with
  | nil => intro a x hx; cases hx
  | cons b l ih =>
    intro a x hx
    rcases List.mem_cons.mp hx with h | h
    · subst h
      exact le_trans (le_max_right a x) (le_foldl_max l (max a x))
    · exact ih (max a b) x h

lemma foldl_max_mem (l : List Int) : ∀ a : Int, l.foldl max a ∈ a :: l := by
  induction l with
  | nil => intro a; exact List.mem_singleton.mpr rfl
  | cons b l ih =>
    intro a
    have h := ih (max a b)
    rcases List.mem_cons.mp h with h1 | h1
    · rcases max_choice a b with hm | hm
      · exact List.mem_cons.mpr (Or.inl (h1.trans hm))
      · refine List.mem_cons.mpr (Or.inr ?_)
        exact List.mem_cons.mpr (Or.inl (h1.trans hm))
    · refine List.mem_cons.mpr (Or.inr ?_)
      exact List.mem_cons.mpr (Or.inr h1)

lemma idDefault0_of_ne_null {t : Task} (h : t.id ≠ IdVal.null) :
    idDefault0 t = some (idNum t) := by
  cases ht : t.id with
  | absent => simp [idDefault0, idNum, ht]
  | null => exact absurd ht h
  | int n => simp [idDefault0, idNum, ht]

lemma idsOf_of_no_null :
    ∀ ts : List Task, (∀ t ∈ ts, t.id ≠ IdVal.null) →
      idsOf ts = some (ts.map idNum) := by
  intro ts
  induction ts with
  | nil => intro _; rfl
  | cons t ts ih =>
    intro h
    have ht := idDefault0_of_ne_null (h t (List.mem_cons_self t ts))
    have hts := ih (fun u hu => h u (List.mem_cons_of_mem t hu))
    simp [idsOf, ht, hts]

lemma idsOf_of_null :
    ∀ ts : List Task, (∃ t ∈ ts, t.id = IdVal.null) → idsOf ts = none := by
  intro ts
  induction ts with
  | nil => rintro ⟨t, ht, _⟩; cases ht
  | cons t ts ih =>
    rintro ⟨u, hu, hnull⟩
    rcases List.mem_cons.mp hu with h | h
    · subst h
      simp [idsOf, idDefault0, hnull]
    · have := ih ⟨u, h, hnull⟩
      cases hd : idDefault0 t <;> simp [idsOf, hd, this]

/-- C3: `generate_unique_id` returns `1` on an empty collection; on a
non-empty collection whose id fields (where present) are integers — the data
model of the spec, the `null` case being claim C9 — it returns a value that is
one more than an id actually attained in the collection (with a missing id
field read as `0`) and strictly greater than every id in the collection. -/
theorem C3_generate_unique_id_correct :
    ∀ tasks : List Task,
      (tasks = [] → generate_unique_id tasks = .ok 1) ∧
      (tasks ≠ [] → (∀ t ∈ tasks, t.id ≠ IdVal.null) →
        ∃ n : Int, generate_unique_id tasks = .ok n ∧
          (∃ t0 ∈ tasks, n = idNum t0 + 1) ∧
          (∀ t ∈ tasks, idNum t < n)) := by
  intro tasks
  constructor
  · intro h; subst h; rfl
  · intro hne h
    match tasks with
    | [] => exact absurd rfl hne
    | t :: ts =>
      have ht := idDefault0_of_ne_null (h t (List.mem_cons_self t ts))
      have hts := idsOf_of_no_null ts (fun u hu => h u (List.mem_cons_of_mem t hu))
      refine ⟨(ts.map idNum).foldl max (idNum t) + 1, ?_, ?_, ?_⟩
      · simp [generate_unique_id, ht, hts]
      · have hmem := foldl_max_mem (ts.map idNum) (idNum t)
        rcases List.mem_cons.mp hmem with h1 | h1
        · exact ⟨t, List.mem_cons_self t ts, by rw [h1]⟩
        · rcases List.mem_map.mp h1 with ⟨u, hu, hval⟩
          exact ⟨u, List.mem_cons_of_mem t hu, by rw [hval]⟩
      · intro u hu
        rcases List.mem_cons.mp hu with h1 | h1
        · subst h1
          exact lt_of_le_of_lt (le_foldl_max (ts.map idNum) (idNum u))
            (lt_add_one _)
        · refine lt_of_le_of_lt ?_ (lt_add_one _)
          exact mem_le_foldl_max (ts.map idNum) (idNum t) (idNum u)
            (List.mem_map_of_mem idNum h1)

/-- C3 witness: on `[sample1, sample2]` (ids 1 and 2) the id generator
returns `3 = 2 + 1`, strictly above both ids. -/
theorem C3_witness :
    generate_unique_id [] = .ok 1 ∧
    ∃ n : Int, generate_unique_id [sample1, sample2] = .ok n ∧
      (∃ t0 ∈ [sample1, sample2], n = idNum t0 + 1) ∧
      (∀ t ∈ [sample1, sample2], idNum t < n) :=
  ⟨(C3_generate_unique_id_correct []).1 rfl,
   (C3_generate_unique_id_correct [sample1, sample2]).2 (by decide) (by decide)⟩

/-- C9: the `id = 0` default applies only to an absent `id` key.  A present
`id = None` — as carried by every task `create_task` returns — makes
`generate_unique_id` raise `TypeError` (from `max`/`+ 1` on `None`) instead of
being treated as `0`; and every task successfully returned by `create_task`
does carry `id = None`. -/
theorem C9_null_id_typeerror :
    (∀ tasks : List Task, (∃ t ∈ tasks, t.id = IdVal.null) →
      generate_unique_id tasks = .error .typeError) ∧
    (∀ (today : Date) (now title description priority category due_date : String)
        (task : Task),
      create_task today now title description priority category due_date =
        .ok task → task.id = IdVal.null) := by
  constructor
  · intro tasks hex
    match tasks with
    | [] => rcases hex with ⟨t, ht, _⟩; cases ht
    | t :: ts =>
      rcases hex with ⟨u, hu, hnull⟩
      rcases List.mem_cons.mp hu with h | h
      · subst h
        simp [generate_unique_id, idDefault0, hnull]
      · have hts := idsOf_of_null ts ⟨u, h, hnull⟩
        cases hd : idDefault0 t <;> simp [generate_unique_id, hd, hts]
  · intro today now title description priority category due_date task h
    by_cases hti : title = ""
    · simp [create_task, hti] at h
    · simp only [create_task, if_neg hti, validate_task] at h
      simp only [Option.getD_some] at h
      rw [if_neg (by simpa using hti)] at h
      simp only [Except.ok.injEq] at h
      rw [← h]

/-- C9 witness: a concrete collection holding one task with `id = None`
(freshly produced by `create_task`) makes `generate_unique_id` raise. -/
theorem C9_witness :
    generate_unique_id [{ sample1 with id := IdVal.null }] =
      .error .typeError ∧
    Task.id { id := IdVal.null, title := some "T", description := some "",
              priority := some "High", category := some "Other",
              due_date := some "2024-12-31", completed := some false,
              created_at := some "n" } = IdVal.null :=
  ⟨C9_null_id_typeerror.1 [{ sample1 with id := IdVal.null }] (by decide),
   C9_null_id_typeerror.2 day0 "n" "T" "" "High" "" "2024-12-31" _ (by decide)⟩

/-! ### Lemmas about overdue detection -/

/-- Behaviour of `get_overdue_tasks` in one equation: the first task to
trigger an error (in list order) determines the raised error; when no task
triggers one, the result is the in-order sublist of overdue tasks. -/
lemma get_overdue_characterization (today : Date) (tasks : List Task) :
    get_overdue_tasks today tasks =
      match tasks.findSome? offend with
      | some e => .error e
      | none => .ok (tasks.filter (isOverdue today)) := by
  induction tasks with
  | nil => rfl
  | cons t ts ih =>
    by_cases hI : isIncomplete t = true
    · have hI' : (!t.completed.getD false) = true := hI
      cases hd : t.due_date with
      | none =>
        simp [get_overdue_tasks, hI', List.findSome?_cons, offend, hI, hd]
      | some s =>
        cases hp : parseDate s with
        | none =>
          simp [get_overdue_tasks, hI', List.findSome?_cons, offend, hI, hd, hp]
        | some d =>
          have hoff : offend t = none := by simp [offend, hI, hd, hp]
          rw [List.findSome?_cons_of_isNone _ (by simp [hoff])]
          simp only [get_overdue_tasks, hI', if_pos rfl, hd, hp, ih]
          cases hfs : ts.findSome? offend with
          | some e => simp
          | none =>
            have hov : isOverdue today t = dateBefore d today := by
              simp [isOverdue, hI, dueBefore, hd, hp]
            simp only [List.filter_cons, hov]
            cases hb : dateBefore d today <;> simp
    · have hI' : (!t.completed.getD false) = false := by
        simpa [isIncomplete] using hI
      have hoff : offend t = none := by simp [offend, hI]
      have hov : isOverdue today t = false := by simp [isOverdue, hI]
      rw [List.findSome?_cons_of_isNone _ (by simp [hoff])]
      simp only [get_overdue_tasks, hI', Bool.false_eq_true, if_false, ih,
        List.filter_cons, hov, Bool.false_eq_true, if_false]

lemma offend_eq_none_iff (t : Task) :
    offend t = none ↔ (isIncomplete t = true → dueParses t = true) := by
  unfold offend dueParses
  by_cases hI : isIncomplete t = true
  · simp only [hI, if_pos rfl]
    cases hd : t.due_date with
    | none => simp
    | some s => cases hp : (parseDate s).isSome <;> simp [hp]
  · simp only [if_neg hI]
    simp only [Bool.not_eq_true] at hI
    simp [hI]

/-- C2: with `today` the current date, `get_overdue_tasks`
(1) returns, in input order, exactly the incomplete tasks whose `due_date`
parses strictly before `today`, whenever every incomplete task has a parsable
`due_date`;
(2) errors whenever some incomplete task has no `due_date` key;
(3) errors whenever some incomplete task has an unparsable `due_date`
(no silent coercion);
(4) any raised error kind is attested by an incomplete task of that kind
(the missing-field `ValueError` only for a missing `due_date`, the `strptime`
`ValueError` only for an unparsable one); and
(5) a returned list never contains a completed task. -/
theorem C2_get_overdue_correct :
    ∀ (today : Date) (tasks : List Task),
      ((∀ t ∈ tasks, isIncomplete t = true → dueParses t = true) →
        get_overdue_tasks today tasks = .ok (tasks.filter (isOverdue today))) ∧
      ((∃ t ∈ tasks, isIncomplete t = true ∧ t.due_date = none) →
        ∃ e, get_overdue_tasks today tasks = .error e) ∧
      ((∃ t ∈ tasks, isIncomplete t = true ∧
          ∃ s, t.due_date = some s ∧ parseDate s = none) →
        ∃ e, get_overdue_tasks today tasks = .error e) ∧
      (∀ e, get_overdue_tasks today tasks = .error e →
        ∃ t ∈ tasks, offend t = some e) ∧
      (∀ l, get_overdue_tasks today tasks = .ok l →
        l = tasks.filter (isOverdue today) ∧
        ∀ t ∈ l, isIncomplete t = true) := by
  intro today tasks
  have hch := get_overdue_characterization today tasks
  refine ⟨?_, ?_, ?_, ?_, ?_⟩
  · intro h
    have hnone : tasks.findSome? offend = none := by
      rw [List.findSome?_eq_none_iff]
      intro t ht
      exact (offend_eq_none_iff t).mpr (h t ht)
    rw [hch, hnone]
  · rintro ⟨t, ht, hI, hd⟩
    cases hfs : tasks.findSome? offend with
    | some e => exact ⟨e, by rw [hch, hfs]⟩
    | none =>
      have := (List.findSome?_eq_none_iff.mp hfs) t ht
      simp [offend, hI, hd] at this
  · rintro ⟨t, ht, hI, s, hd, hp⟩
    cases hfs : tasks.findSome? offend with
    | some e => exact ⟨e, by rw [hch, hfs]⟩
    | none =>
      have := (List.findSome?_eq_none_iff.mp hfs) t ht
      simp [offend, hI, hd, hp] at this
  · intro e he
    rw [hch] at he
    cases hfs : tasks.findSome? offend with
    | some e2 =>
      rw [hfs] at he
      simp only [Except.error.injEq] at he
      subst he
      exact List.exists_of_findSome?_eq_some hfs
    | none => rw [hfs] at he; cases he
  · intro l hl
    rw [hch] at hl
    cases hfs : tasks.findSome? offend with
    | some e2 => rw [hfs] at hl; cases hl
    | none =>
      rw [hfs] at hl
      simp only [Except.ok.injEq] at hl
      subst hl
      refine ⟨rfl, fun t ht => ?_⟩
      have := List.of_mem_filter ht
      exact (Bool.and_eq_true _ _).mp this |>.1

/-- C2 witness: with `today = 2025-01-15` and the §8 scenario collection
(due yesterday incomplete, due today incomplete, due tomorrow completed) the
result is exactly the first task; a collection whose incomplete task lacks
`due_date` errors; one with an unparsable `due_date` errors. -/
theorem C2_witness :
    (get_overdue_tasks day0 [sample1, sample2, sample3] =
      .ok ([sample1, sample2, sample3].filter (isOverdue day0)) ∧
     get_overdue_tasks day0 [sample1, sample2, sample3] = .ok [sample1]) ∧
    (∃ e, get_overdue_tasks day0 [sampleNoDue] = .error e) ∧
    (∃ e, get_overdue_tasks day0 [sampleBadDue] = .error e) ∧
    (∃ t ∈ [sampleNoDue], offend t = some OverdueError.missingDueDate) ∧
    ([sample1] = [sample1, sample2, sample3].filter (isOverdue day0) ∧
     ∀ t ∈ [sample1], isIncomplete t = true) := by
  refine ⟨⟨(C2_get_overdue_correct day0 [sample1, sample2, sample3]).1
      (by decide), ?_⟩, ?_, ?_, ?_, ?_⟩
  · exact ((C2_get_overdue_correct day0 [sample1, sample2, sample3]).1
      (by decide)).trans (by decide)
  · exact (C2_get_overdue_correct day0 [sampleNoDue]).2.1 (by decide)
  · exact (C2_get_overdue_correct day0 [sampleBadDue]).2.2.1
      ⟨sampleBadDue, by decide, by decide, "bogus", by decide, by decide⟩
  · exact (C2_get_overdue_correct day0 [sampleNoDue]).2.2.2.1
      OverdueError.missingDueDate (by decide)
  · exact (C2_get_overdue_correct day0 [sample1, sample2, sample3]).2.2.2.2
      [sample1] (by decide)

/-- C10: `get_overdue_tasks` never inspects a completed task's `due_date`:
whenever every incomplete task has a parsable `due_date`, it returns normally,
no matter what `due_date` (absent, unparsable, anything) the completed tasks
carry. -/
theorem C10_overdue_skips_completed_dates :
    ∀ (today : Date) (tasks : List Task),
      (∀ t ∈ tasks, isIncomplete t = true → dueParses t = true) →
      ∃ l, get_overdue_tasks today tasks = .ok l := by
  intro today tasks h
  rw [get_overdue_characterization today tasks]
  have hnone : tasks.findSome? offend = none := by
    rw [List.findSome?_eq_none_iff]
    intro t ht
    exact (offend_eq_none_iff t).mpr (h t ht)
  rw [hnone]
  exact ⟨_, rfl⟩

/-- C10 witness: a collection whose completed tasks have no `due_date` and an
unparsable `due_date` respectively still returns normally, because its only
incomplete task has a parsable one. -/
theorem C10_witness :
    ∃ l, get_overdue_tasks day0
      [sample1,
       { sample3 with due_date := none },
       { sample3 with due_date := some "not-a-date" }] = .ok l :=
  C10_overdue_skips_completed_dates day0
    [sample1,
     { sample3 with due_date := none },
     { sample3 with due_date := some "not-a-date" }] (by decide)

/-- C4: `create_task` fails (with `ValueError`) exactly when the title is
empty; for every non-empty title it returns a task with `completed = False`
and `id = None`, a priority outside High/Medium/Low coerced to `"Low"`, and an
unparsable due date coerced to the current date. -/
theorem C4_create_task_correct :
    ∀ (today : Date) (now title description priority category due_date : String),
      (title = "" →
        create_task today now title description priority category due_date =
          .error .valueError) ∧
      (title ≠ "" → ∃ task,
        create_task today now title description priority category due_date =
          .ok task ∧
        task.completed = some false ∧
        task.id = IdVal.null ∧
        (validPriorities.contains priority = false →
          task.priority = some "Low") ∧
        (parseDate due_date = none →
          task.due_date = some (formatDate today))) := by
  intro today now ti de pr ca dd
  constructor
  · intro h
    simp [create_task, h]
  · intro hti
    by_cases hpr : validPriorities.contains pr = true
    · have hm : pr ∈ validPriorities := by simpa using hpr
      by_cases hdd : (parseDate dd).isSome = true
      · refine ⟨{ id := .null, title := some ti,
                  description := some (if de = "" then "" else de),
                  priority := some pr,
                  category := some (if ca = "" then "Other" else ca),
                  due_date := some dd, completed := some false,
                  created_at := some now }, ?_, rfl, rfl, ?_, ?_⟩
        · simp [create_task, validate_task, hti, hm, hdd]
        · intro h
          rw [h] at hpr
          cases hpr
        · intro h
          rw [h] at hdd
          cases hdd
      · simp only [Bool.not_eq_true] at hdd
        refine ⟨{ id := .null, title := some ti,
                  description := some (if de = "" then "" else de),
                  priority := some pr,
                  category := some (if ca = "" then "Other" else ca),
                  due_date := some (formatDate today), completed := some false,
                  created_at := some now }, ?_, rfl, rfl, ?_, fun _ => rfl⟩
        · simp [create_task, validate_task, hti, hm, hdd, ite_self]
        · intro h
          rw [h] at hpr
          cases hpr
    · have hm : pr ∉ validPriorities := by simpa using hpr
      simp only [Bool.not_eq_true] at hpr
      have hlowm : "Low" ∈ validPriorities := by decide
      by_cases hdd : (parseDate dd).isSome = true
      · refine ⟨{ id := .null, title := some ti,
                  description := some (if de = "" then "" else de),
                  priority := some "Low",
                  category := some (if ca = "" then "Other" else ca),
                  due_date := some dd, completed := some false,
                  created_at := some now }, ?_, rfl, rfl, fun _ => rfl, ?_⟩
        · simp [create_task, validate_task, hti, hm, hlowm, hdd]
        · intro h
          rw [h] at hdd
          cases hdd
      · simp only [Bool.not_eq_true] at hdd
        refine ⟨{ id := .null, title := some ti,
                  description := some (if de = "" then "" else de),
                  priority := some "Low",
                  category := some (if ca = "" then "Other" else ca),
                  due_date := some (formatDate today), completed := some false,
                  created_at := some now }, ?_, rfl, rfl, fun _ => rfl, fun _ => rfl⟩
        simp [create_task, validate_task, hti, hm, hlowm, hdd, ite_self]

/-- C4 witness: the §8 scenario.  `create_task("Buy milk", "", "Bogus", "",
"31-12-2024")` (with today = 2025-01-15) succeeds with priority coerced to
`"Low"` and due date coerced to today; `create_task("", ...)` fails. -/
theorem C4_witness :
    (∃ task,
      create_task day0 "2025-01-15 09:00:00" "Buy milk" "" "Bogus" "" "31-12-2024" =
        .ok task ∧
      task.completed = some false ∧
      task.id = IdVal.null ∧
      (validPriorities.contains "Bogus" = false → task.priority = some "Low") ∧
      (parseDate "31-12-2024" = none →
        task.due_date = some (formatDate day0))) ∧
    create_task day0 "2025-01-15 09:00:00" "" "x" "High" "y" "2024-12-31" =
      .error .valueError :=
  ⟨(C4_create_task_correct day0 "2025-01-15 09:00:00" "Buy milk" "" "Bogus" ""
      "31-12-2024").2 (by decide),
   (C4_create_task_correct day0 "2025-01-15 09:00:00" "" "x" "High" "y"
      "2024-12-31").1 rfl⟩

/-- C5: searching with an absent (`None`) or empty query returns `[]`; for a
non-empty query the result is, in input order, the validated form of exactly
those tasks that pass `validate_task` and whose title or description contains
the query case-insensitively — tasks failing validation are silently
excluded. -/
theorem C5_search_correct :
    ∀ (today : Date) (now : String) (tasks : List Task) (query : Option String),
      ((query = none ∨ query = some "") →
        search_tasks today now tasks query = []) ∧
      (∀ q, query = some q → q ≠ "" →
        search_tasks today now tasks query = search_spec today now tasks q) := by
  intro today now tasks query
  constructor
  · rintro (h | h) <;> subst h <;> simp [search_tasks]
  · intro q hq hne
    subst hq
    simp only [search_tasks, if_neg hne]
    induction tasks with
    | nil => rfl
    | cons t ts ih =>
      rcases hval : validate_task today now t with ⟨b, t'⟩
      have hcond :
          (b && (strContains (lowerStr (t'.title.getD "")) (lowerStr q) ||
                 strContains (lowerStr (t'.description.getD "")) (lowerStr q))) =
          (b && decide (matchesQuery q t')) := by
        simp [strContains, matchesQuery, Bool.decide_or]
      simp only [List.filterMap_cons, search_spec, List.map_cons,
        List.filter_cons, hval, hcond]
      cases hb : (b && decide (matchesQuery q t')) with
      | false =>
        simp only [Bool.false_eq_true, if_false]
        simpa [search_spec] using ih
      | true =>
        simp only [if_pos rfl, List.map_cons]
        simpa [search_spec] using ih

/-- C5 witness: the §8 scenario.  Searching `[Test Task 1, Test Task 2]` plus
a task that fails validation (empty title, matching description) for
`"TEST TASK 1"` agrees with the claim-side filter, and returns exactly the
first task; an empty and an absent query return `[]`. -/
theorem C5_witness :
    (search_tasks day0 "now" [sample1, sample2, sampleUntitled]
        (some "TEST TASK 1") =
      search_spec day0 "now" [sample1, sample2, sampleUntitled] "TEST TASK 1") ∧
    (search_tasks day0 "now" [sample1, sample2, sampleUntitled]
        (some "TEST TASK 1") = [sample1]) ∧
    search_tasks day0 "now" [sample1, sample2] (some "") = [] ∧
    search_tasks day0 "now" [sample1, sample2] none = [] := by
  refine ⟨(C5_search_correct day0 "now" [sample1, sample2, sampleUntitled]
      (some "TEST TASK 1")).2 "TEST TASK 1" rfl (by decide), by decide,
    (C5_search_correct day0 "now" [sample1, sample2] (some "")).1
      (Or.inr rfl),
    (C5_search_correct day0 "now" [sample1, sample2] none).1 (Or.inl rfl)⟩

end TaskApp
